import Mathlib

/-! Verification of the `jink` JunOS syntax highlighter (Go) against its
natural-language specification.

Shallow embedding notes:
* Go strings are modelled as `List Char` (`Str`); the Go code indexes bytes,
  and every input relevant to the claims is ASCII, where bytes and runes
  coincide.  Cursor positions (`l.pos`) are modelled by passing the remaining
  suffix of the input; `advance` corresponds to consuming the head.
* Go's regular expressions (RE2, leftmost-first submatch semantics) are
  embedded as hand-written decision procedures.  For each pattern used by the
  code the character classes of adjacent sub-patterns are disjoint, so
  greedy maximal-munch scanning is equivalent to the backtracking semantics;
  where alternations overlap (interface prefixes, route protocols) all
  alternatives are tried.  The one non-trivial case, `promptPattern`, is
  analysed in detail at its definition.
* `line`/`column` bookkeeping of the Go lexer is modelled faithfully
  (`LexState.line`, `LexState.col`); the `col = 1` test gates diff-line
  scanning exactly as in the source.
* Loops are modelled with explicit fuel so that all definitions compute by
  kernel reduction; `Tokenize` supplies `length + 1` fuel, which is shown
  sufficient (each scanning step strictly consumes input).
* `strings.ToLower` is modelled per-character (`Char.toLower`); all keyword
  tables are ASCII, where this matches Go.  `strings.TrimSpace` is modelled
  on the ASCII whitespace set plus U+0085/U+00A0 (the Latin-1 part of Go's
  `unicode.IsSpace`); other Unicode space characters do not occur in the
  claims' scope.
* The `sync` mutexes, pty handling and debug logging have no bearing on any
  claim and are not modelled.
-/

/-- Go (byte-)strings, modelled as lists of characters. -/
abbrev Str := List Char

/-- All suffixes of a list, longest first (used for substring search). -/
def allSuffixes : Str → List Str
  | [] => [[]]
  | c :: cs => (c :: cs) :: allSuffixes cs

/-- Go `strings.Contains l sub`: `sub` occurs as a contiguous substring of `l`. -/
def containsSub (l sub : Str) : Bool :=
  (allSuffixes l).any (fun suf => sub.isPrefixOf suf)

/-- Go `strings.ToLower` (ASCII). -/
def toLowerStr (s : Str) : Str := s.map Char.toLower

/-- Go `unicode.IsSpace` restricted to Latin-1 (covers all inputs in scope). -/
def goUniSpace (c : Char) : Bool :=
  c = ' ' ∨ c = '\t' ∨ c = '\n' ∨ c = '\x0b' ∨ c = '\x0c' ∨ c = '\r' ∨
  c = '\x85' ∨ c = '\xa0'

/-- Go `strings.TrimSpace`. -/
def trimSpace (s : Str) : Str :=
  ((s.dropWhile goUniSpace).reverse.dropWhile goUniSpace).reverse

/-- Go `strings.TrimRight s " \t"`. -/
def trimRightSpaceTab (s : Str) : Str :=
  (s.reverse.dropWhile (fun c => c = ' ' ∨ c = '\t')).reverse

/-- Go `strings.HasSuffix s "\n"`. -/
def endsWithNewline (s : Str) : Bool := s.getLast? = some '\n'

namespace Lexer

/-- Go `lexer.TokenType`: the closed token-kind enumeration of `token.go`. -/
inductive TokenType where
  | text | command | section | protocol | action | interface
  | ipv4 | ipv4Prefix | ipv6 | ipv6Prefix | mac | number
  | string | comment | annotation | brace | semicolon | wildcard
  | identifier | keyword | operator | unit | asn | community | value
  | stateGood | stateBad | stateWarning | stateNeutral
  | columnHeader | statusSymbol | timeDuration | percentage | byteSize
  | routeProtocol | tableName
  | promptUser | promptAt | promptHostOper | promptHostConf
  | promptOper | promptConf | promptEdit
  | diffAdd | diffRemove | diffContext
  deriving DecidableEq, Repr

/-- Go `lexer.Token`: `{Type, Value, Line, Column}`. -/
structure Token where
  type : TokenType
  value : Str
  line : Nat
  col : Nat
  deriving DecidableEq, Repr

/-- Go `lexer.ParseMode`. -/
inductive ParseMode where
  | auto | config | show
  deriving DecidableEq, Repr

/-- The mutable fields of Go's `Lexer` struct other than `input`/`pos`
(the input and cursor are passed explicitly as a remaining suffix). -/
structure LexState where
  parseMode : ParseMode
  detectedMode : Bool
  expectingValue : Bool
  expectingUnit : Bool
  lastToken : Str
  line : Nat
  col : Nat
  deriving DecidableEq, Repr

/-- Go `lexer.New`: fresh lexer (Auto mode, line 1, column 1). -/
def initState : LexState :=
  ⟨ParseMode.auto, false, false, false, [], 1, 1⟩

/-- Go `New` followed by `SetParseMode mode` (sets the detected flag). -/
def stateWithMode (m : ParseMode) : LexState :=
  { initState with parseMode := m, detectedMode := true }

/-- Go `isWhitespace` from lexer.go: space, tab, newline, carriage return. -/
def lexIsWhitespace (c : Char) : Bool :=
  c = ' ' ∨ c = '\t' ∨ c = '\n' ∨ c = '\r'

/-- Update `(line, col)` across one consumed character (`Lexer.advance`). -/
def advanceLC (lc : Nat × Nat) (c : Char) : Nat × Nat :=
  if c = '\n' then (lc.1 + 1, 1) else (lc.1, lc.2 + 1)

/-- Update the positional part of the state across a consumed prefix. -/
def lcUpdate (st : LexState) (consumed : Str) : LexState :=
  let lc := consumed.foldl advanceLC (st.line, st.col)
  { st with line := lc.1, col := lc.2 }

end Lexer

namespace Lexer

/-- Membership in a Go `map[string]bool` keyword set. -/
def memTable (t : List String) (w : Str) : Bool :=
  t.any (fun k => k.toList == w)

/-- Go `commands` keyword set from lexer.go. -/
def commands : List String :=
  ["set", "delete", "deactivate", "activate",
   "protect", "unprotect", "edit", "show",
   "request", "run", "insert", "rename",
   "copy", "top", "up", "exit", "quit",
   "commit", "rollback", "load", "save",
   "configure", "cli", "help", "clear",
   "restart", "start", "stop", "monitor",
   "ping", "traceroute", "ssh", "telnet"]

/-- Go `sections` keyword set from lexer.go. -/
def sections : List String :=
  ["system", "chassis", "interfaces",
   "routing-options", "routing-instances", "protocols",
   "policy-options", "firewall", "security",
   "class-of-service", "applications", "services",
   "snmp", "forwarding-options", "groups",
   "apply-groups", "apply-groups-except",
   "vlans", "bridge-domains",
   "virtual-chassis", "multi-chassis", "access",
   "ethernet-switching-options", "switch-options",
   "poe", "event-options", "accounting-options",
   "logical-systems", "tenants",
   "evpn", "vxlan", "mac-vrf", "virtual-switch",
   "overlay", "underlay",
   "dynamic-profiles", "subscriber-management",
   "unified-edge", "diameter", "aaa",
   "address-assignment", "access-profile",
   "openconfig", "telemetry", "streaming-telemetry",
   "grpc", "gnmi"]

/-- Go `protocols` keyword set from lexer.go. -/
def protocolsTable : List String :=
  ["ospf", "ospf3", "bgp", "isis", "is-is",
   "rip", "ripng", "ldp", "rsvp",
   "mpls", "vpls", "evpn", "pim",
   "igmp", "mld", "msdp", "bfd",
   "lacp", "lldp", "lldp-med", "rstp",
   "mstp", "vstp", "stp", "vrrp",
   "dot1x", "oam", "cfm",
   "tcp", "udp", "icmp", "icmp6",
   "icmpv6", "gre", "ipip", "esp",
   "ah", "sctp",
   "inet", "inet6", "iso", "ccc",
   "bridge", "ethernet-switching",
   "inet-vpn", "inet6-vpn", "l2vpn",
   "ssh", "telnet", "ftp", "tftp",
   "http", "https", "ntp", "dns",
   "dhcp", "radius", "tacplus", "syslog",
   "netconf", "junoscript",
   "vxlan", "vtep", "vni", "esi",
   "l2circuit", "l3vpn", "mc-lag",
   "igmp-snooping", "mld-snooping", "l2-learning",
   "source-packet-routing", "spring", "srv6",
   "segment-routing", "pcep", "te",
   "sr-te", "sr-mpls", "sr-policy",
   "pppoe", "ppp", "l2tp", "dhcpv6",
   "diameter", "gx", "gy",
   "nasreq", "subscriber",
   "ike", "ipsec",
   "alg", "sip", "h323", "mgcp",
   "sccp", "rtsp", "pptp", "sunrpc", "msrpc",
   "gnmi", "grpc", "openconfig"]

/-- Go `actions` keyword set from lexer.go. -/
def actions : List String :=
  ["accept", "reject", "discard", "deny",
   "permit", "next", "next-term",
   "count", "log", "syslog", "sample",
   "port-mirror", "analyzer",
   "next-hop", "self", "table", "policy",
   "community", "local-preference", "metric",
   "origin", "as-path", "as-path-prepend", "med",
   "preference", "tag", "color", "color2",
   "load-balance", "install-nexthop",
   "loss-priority", "loss-priority-high", "loss-priority-low",
   "loss-priority-medium-high", "loss-priority-medium-low",
   "forwarding-class", "forwarding-class-except",
   "policer", "three-color-policer",
   "dscp", "traffic-class",
   "tunnel", "ipsec-vpn",
   "source-nat", "destination-nat", "static-nat",
   "first-fragment", "fragment-offset", "fragment-offset-except",
   "is-fragment", "fragment-flags",
   "tcp-initial", "tcp-established", "tcp-flags",
   "syn", "ack", "fin", "rst", "push", "urgent",
   "icmp-type", "icmp-type-except",
   "icmp-code", "icmp-code-except",
   "packet-length", "packet-length-except",
   "ttl", "ttl-except",
   "hop-limit", "hop-limit-except",
   "payload-protocol", "payload-protocol-except",
   "traffic-type", "traffic-type-except",
   "source-mac-address", "destination-mac-address",
   "ether-type", "vlan-ether-type",
   "user-vlan-id", "learn-vlan-id",
   "dot1q-tag", "dot1q-user-priority",
   "interface", "interface-group", "interface-group-except",
   "interface-set", "ifl-number",
   "input-interface", "output-interface",
   "next-header", "next-header-except",
   "extension-header", "extension-header-except",
   "ip-options", "ip-options-except",
   "flexible-match-mask", "flexible-match-range",
   "loss-priority-except",
   "packet-length-range", "port-except",
   "prefix-list-except", "source-class", "destination-class",
   "service-filter-hit", "policy-map"]

/-- Go `keywords` keyword set from lexer.go. -/
def keywordsTable : List String :=
  ["version", "host-name", "domain-name",
   "name-server", "root-authentication", "login",
   "user", "class", "authentication",
   "encrypted-password", "ssh-rsa", "ssh-dsa",
   "ssh-ecdsa", "ssh-ed25519",
   "description", "disable", "enable",
   "inactive", "apply-macro", "apply-path",
   "unit", "family", "address", "vlan-id",
   "vlan-tagging", "flexible-vlan-tagging",
   "native-vlan-id", "mtu", "speed",
   "duplex", "auto-negotiation", "no-auto-negotiation",
   "gigether-options", "ether-options",
   "aggregated-ether-options", "link-speed",
   "minimum-links", "lacp", "active", "passive",
   "fast", "slow", "force-up",
   "interface-range", "member", "members",
   "interface-mode", "trunk", "access",
   "scripts", "language", "synchronize",
   "login-alarms", "login-tip", "permissions",
   "uid", "gid", "password", "format",
   "port", "root-login", "protocol-version",
   "auto-snapshot", "time-zone",
   "filter", "term", "from", "then",
   "source-address", "destination-address",
   "source-port", "destination-port",
   "source-prefix-list", "destination-prefix-list",
   "protocol", "prefix-list", "prefix-list-filter",
   "route-filter", "community-count", "as-path-group",
   "rib-group", "rib", "static", "route",
   "qualified-next-hop", "preference", "tag",
   "no-readvertise", "retain", "no-retain",
   "discard", "reject", "receive",
   "aggregate", "generate", "martians",
   "router-id", "autonomous-system", "confederation",
   "instance-type", "interface-routes",
   "area", "interface", "neighbor", "group",
   "type", "peer-as", "local-as", "import",
   "export", "local-address", "authentication-key",
   "authentication-type", "bfd-liveness-detection",
   "minimum-interval", "multiplier", "hold-time",
   "damping", "multihop", "no-client-reflect",
   "cluster", "remove-private",
   "default-metric", "reference-bandwidth",
   "traffic-engineering", "shortcuts", "no-nssa-abr",
   "stub", "nssa", "default-lsa", "summaries",
   "virtual-link", "transit-area",
   "label-switched-path", "path", "primary",
   "secondary", "standby", "bandwidth",
   "priority", "hop-limit", "record", "cspf",
   "node-link-protection", "fast-reroute",
   "detour", "admin-group", "include",
   "include-any", "exclude", "optimize-timer",
   "revert-timer", "signaled-bandwidth",
   "zone", "security-zone", "address-book",
   "host-inbound-traffic", "system-services",
   "policies", "policy", "match", "application",
   "source-zone", "destination-zone", "nat",
   "source", "destination", "pool",
   "rule-set", "rule",
   "translation-type", "translated",
   "screen", "ids-option", "icmp", "ip",
   "tcp-rst", "session-close", "alarm-threshold",
   "flow", "tcp-session", "tcp-mss",
   "allow-dns-reply", "allow-embedded-icmp",
   "ike", "gateway", "proposal", "ipsec",
   "vpn", "tunnel", "establish-tunnels",
   "immediately", "on-traffic", "responder-only",
   "bind-interface", "ike-policy", "ipsec-policy",
   "pre-shared-key", "ascii-text", "certificate",
   "local-identity", "remote-identity",
   "dead-peer-detection", "interval", "threshold",
   "general-ikeid", "no-anti-replay",
   "trap-group", "trap-options", "categories",
   "targets", "community-name", "authorization",
   "read-only", "read-write", "view",
   "client-list", "interface-list",
   "location", "contact", "community",
   "storm-control-profiles", "storm-control",
   "analyzer", "port-mirroring", "helpers",
   "ip-version", "ip-protocol", "ipv4", "ipv6",
   "ip-destination-address", "ip-source-address",
   "ip6-destination-address", "ip6-source-address",
   "router-advertisement", "router-solicitation",
   "neighbor-advertisement", "neighbor-solicitation",
   "dhcpv6-client", "dhcp-client",
   "client-type", "client-ia-type", "ia-na", "ia-pd",
   "rapid-commit", "client-identifier",
   "duid-type", "duid-llt", "duid-ll",
   "stateful", "stateless",
   "default",
   "inactive:",
   "vni", "vtep-source-interface", "extended-vni-list",
   "encapsulation", "multicast-mode", "ingress-replication",
   "route-distinguisher", "vrf-target",
   "vrf-import", "vrf-export", "vrf-table-label",
   "auto-export", "auto-rt",
   "ethernet-segment", "esi", "all-active",
   "single-active", "designated-forwarder-election",
   "df-election-type", "recovery-timer",
   "default-gateway", "advertise-default-gateway",
   "no-arp-suppression", "proxy-arp", "proxy-nd",
   "virtual-router", "vrf", "layer2-control",
   "interconnect", "no-vrf-propagate-ttl",
   "iccp", "peer", "liveness-detection",
   "redundancy-group", "preempt",
   "node-segment", "index-range", "srgb", "srlb",
   "sid", "prefix-segment", "adjacency-segment",
   "binding-segment", "tilfa", "ti-lfa",
   "post-convergence-lfa", "backup-selection",
   "segment-list", "compute", "explicit",
   "sr-te-template", "lsp-external-controller",
   "pce-controlled", "delegate", "report",
   "stateful-pce", "pce-peer", "destination-prefix",
   "locator", "end-sid", "end-x-sid", "end-dt",
   "source-routing-header", "encapsulation-mode",
   "demux-source", "underlying-interface",
   "client-profile", "server-profile",
   "ppp-options", "pppoe-options",
   "service-name-table", "max-sessions",
   "session-limit", "service-profile",
   "authentication-order", "accounting",
   "radius-server", "tacplus-server",
   "secret", "timeout", "retry",
   "network", "range", "low", "high",
   "dhcp-attributes", "option", "option-82",
   "relay-option", "relay-agent-information",
   "subscriber-id", "agent-circuit-id", "agent-remote-id",
   "lns", "lac", "l2tp-access-profile",
   "receive-window", "retransmit-interval",
   "maximum-receive-window", "tunnel-group",
   "traffic-control", "traffic-control-profile",
   "scheduler-map", "shaping-rate", "guaranteed-rate",
   "sensor", "sensor-name", "resource",
   "reporting-rate", "polling-interval",
   "change-update", "on-change", "target-defined",
   "export-profile", "local-port",
   "remote-address", "remote-port",
   "transport", "encoding", "subscription",
   "xpath", "sensor-based-stats", "file",
   "commit-script", "op-script", "event-script",
   "slax", "python", "allow-commands", "deny-commands",
   "extension-service", "request-response", "notification"]

/-- Go `valueKeywords` from lexer.go (keywords whose value is colored). -/
def valueKeywords : List String :=
  ["description", "host-name", "domain-name", "name-server",
   "encrypted-password", "authentication-key", "pre-shared-key",
   "ascii-text", "community-name", "version"]

/-- Go `statesGood` from lexer.go. -/
def statesGood : List String :=
  ["up", "establ", "established",
   "full", "master", "primary",
   "enabled", "ok", "online",
   "running", "ready", "complete"]

/-- Go `statesBad` from lexer.go. -/
def statesBad : List String :=
  ["down", "idle", "failed",
   "error", "offline", "disabled",
   "unreachable", "timeout",
   "active", "connect",
   "opensent", "openconfirm"]

/-- Go `statesWarning` from lexer.go. -/
def statesWarning : List String :=
  ["init", "2way", "exstart",
   "exchange", "loading",
   "flapping", "pending", "waiting",
   "starting", "stopping"]

/-- Go `statesNeutral` from lexer.go. -/
def statesNeutral : List String :=
  ["inactive", "standby", "backup", "n/a", "none"]

/-- Go `columnHeaders` from lexer.go. -/
def columnHeaders : List String :=
  ["neighbor", "peer", "state",
   "interface", "admin", "link",
   "proto", "local", "remote",
   "as", "inpkt", "outpkt",
   "flaps", "uptime", "up/dn",
   "mtu", "speed", "type",
   "area", "dr", "bdr",
   "metric", "localpref", "med",
   "nexthop", "gateway", "flags",
   "outq", "prefixes", "paths"]

/-- Go `statusSymbols` from lexer.go. -/
def statusSymbols : List String :=
  ["*", "+", "-", ">", "B", "O", "I", "S", "L", "D"]

end Lexer

/-- ASCII digit. -/
def isDigitCh (c : Char) : Bool := '0' ≤ c ∧ c ≤ '9'

/-- ASCII hex digit (`[0-9a-fA-F]`). -/
def isHexCh (c : Char) : Bool :=
  isDigitCh c ∨ ('a' ≤ c ∧ c ≤ 'f') ∨ ('A' ≤ c ∧ c ≤ 'F')

/-- RE2 `\w` (ASCII word character). -/
def isWordCh (c : Char) : Bool :=
  isDigitCh c ∨ ('a' ≤ c ∧ c ≤ 'z') ∨ ('A' ≤ c ∧ c ≤ 'Z') ∨ c = '_'

/-- RE2 `\s` (`[\t\n\f\r ]`). -/
def isRE2Space (c : Char) : Bool :=
  c = '\t' ∨ c = '\n' ∨ c = '\x0c' ∨ c = '\r' ∨ c = ' '

/-- Consume one expected literal character. -/
def expectChar (c : Char) : Str → Option Str
  | x :: xs => if x = c then some xs else none
  | [] => none

/-- Consume `\d+` (maximal digit run, at least one digit). -/
def digitsPlus (s : Str) : Option Str :=
  if s.takeWhile isDigitCh = [] then none else some (s.dropWhile isDigitCh)

/-- Consume `\d{lo,hi}` followed by end of a sub-pattern whose successor
class excludes digits (maximal-munch is exact for all uses below). -/
def digitsBounded (lo hi : Nat) (s : Str) : Option Str :=
  let d := s.takeWhile isDigitCh
  if lo ≤ d.length ∧ d.length ≤ hi then some (s.dropWhile isDigitCh) else none

namespace Lexer

/-- Go `ipv4Pattern`: `^(\d{1,3}\.){3}\d{1,3}$`.  Digit runs and `.` are
disjoint classes, so maximal-munch equals the regex semantics. -/
def ipv4Pattern (s : Str) : Bool :=
  ((((((digitsBounded 1 3 s).bind (expectChar '.')).bind
      (digitsBounded 1 3)).bind (expectChar '.')).bind
      (digitsBounded 1 3)).bind (expectChar '.')).bind
      (digitsBounded 1 3) == some []

/-- Go `ipv4PrefixPattern`: `^(\d{1,3}\.){3}\d{1,3}/\d{1,2}$`. -/
def ipv4PrefixPattern (s : Str) : Bool :=
  ((((((((digitsBounded 1 3 s).bind (expectChar '.')).bind
      (digitsBounded 1 3)).bind (expectChar '.')).bind
      (digitsBounded 1 3)).bind (expectChar '.')).bind
      (digitsBounded 1 3)).bind (expectChar '/')).bind
      (digitsBounded 1 2) == some []

/-- Body of `ipv6Pattern` (`^[0-9a-fA-F:]+:[0-9a-fA-F:]*$`): equivalent to
"every character is hex or `:`, and some `:` occurs at index ≥ 1"
(the leading `[...]+` must be non-empty, so the separating `:` cannot be
the first character). -/
def ipv6Body (s : Str) : Bool :=
  s.all (fun c => isHexCh c ∨ c = ':') && (s.drop 1).contains ':'

/-- Go `ipv6Pattern`. -/
def ipv6Pattern (s : Str) : Bool := ipv6Body s

/-- All-digit run of length in `[lo, hi]`, consuming to the end. -/
def allDigitsLen (lo hi : Nat) (s : Str) : Bool :=
  s.all isDigitCh && lo ≤ s.length && s.length ≤ hi

/-- Go `ipv6PrefixPattern`: `^[0-9a-fA-F:]+:[0-9a-fA-F:]*/\d{1,3}$`.  The `/`
is excluded from both surrounding classes, so the split at the first `/`
is forced. -/
def ipv6PrefixPattern (s : Str) : Bool :=
  match s.dropWhile (· ≠ '/') with
  | '/' :: rest => ipv6Body (s.takeWhile (· ≠ '/')) && allDigitsLen 1 3 rest
  | _ => false

/-- Consume exactly two hex digits. -/
def hexPair : Str → Option Str
  | a :: b :: r => if isHexCh a ∧ isHexCh b then some r else none
  | _ => none

/-- Go `macPattern`: `^([0-9a-fA-F]{2}:){5}[0-9a-fA-F]{2}(/\d{1,2})?$`. -/
def macPattern (s : Str) : Bool :=
  match (((((((((((hexPair s).bind (expectChar ':')).bind hexPair).bind
      (expectChar ':')).bind hexPair).bind (expectChar ':')).bind
      hexPair).bind (expectChar ':')).bind hexPair).bind
      (expectChar ':')).bind hexPair) with
  | some [] => true
  | some ('/' :: r) => allDigitsLen 1 2 r
  | _ => false

/-- Go `numberPattern`: `^\d+[gmkGMK]?$`. -/
def numberPattern (s : Str) : Bool :=
  s.takeWhile isDigitCh ≠ [] &&
  match s.dropWhile isDigitCh with
  | [] => true
  | [c] => c = 'g' ∨ c = 'm' ∨ c = 'k' ∨ c = 'G' ∨ c = 'M' ∨ c = 'K'
  | _ => false

/-- Go `communityPattern`: `^\d+:\d+$`. -/
def communityPattern (s : Str) : Bool :=
  match (digitsPlus s).bind (expectChar ':') with
  | some r => r ≠ [] && r.all isDigitCh
  | none => false

/-- Go `asnPattern`: `^[Aa][Ss]\d+$`. -/
def asnPattern (s : Str) : Bool :=
  match s with
  | a :: b :: r =>
      (a = 'A' ∨ a = 'a') && (b = 'S' ∨ b = 's') && r ≠ [] && r.all isDigitCh
  | _ => false

/-- Go `unitNumberPattern`: `^\d+$`. -/
def unitNumberPattern (s : Str) : Bool := s ≠ [] && s.all isDigitCh

/-- First alternative of `timeDurationPattern`: `^(\d+[wdhms])+$`.
Each repetition consumes a maximal digit run plus one unit letter
(classes disjoint, so maximal-munch is exact); fuel bounds repetitions. -/
def durAlt1Aux : Nat → Str → Bool
  | 0, _ => false
  | f + 1, s =>
    match s.dropWhile isDigitCh with
    | c :: rest =>
        s.takeWhile isDigitCh ≠ [] &&
        (c = 'w' ∨ c = 'd' ∨ c = 'h' ∨ c = 'm' ∨ c = 's') &&
        (rest = [] || durAlt1Aux f rest)
    | [] => false

/-- Go `timeDurationPattern`: `^(\d+[wdhms])+$|^\d+:\d{2}(:\d{2})?$`. -/
def timeDurationPattern (s : Str) : Bool :=
  durAlt1Aux s.length s ||
  (match (digitsPlus s).bind (expectChar ':') with
   | some r =>
       (match r with
        | [a, b] => isDigitCh a && isDigitCh b
        | [a, b, ':', c, d] => isDigitCh a && isDigitCh b && isDigitCh c && isDigitCh d
        | _ => false)
   | none => false)

/-- Go `percentagePattern`: `^\d+(\.\d+)?%$`. -/
def percentagePattern (s : Str) : Bool :=
  match digitsPlus s with
  | some ['%'] => true
  | some ('.' :: r) =>
      (match digitsPlus r with
       | some ['%'] => true
       | _ => false)
  | _ => false

/-- Go `byteSizePattern`: `^\d+(\.\d+)?[KMGTP][Bb]?$`. -/
def byteSizeTail (r : Str) : Bool :=
  match r with
  | [c] => c = 'K' ∨ c = 'M' ∨ c = 'G' ∨ c = 'T' ∨ c = 'P'
  | [c, b] => (c = 'K' ∨ c = 'M' ∨ c = 'G' ∨ c = 'T' ∨ c = 'P') && (b = 'B' ∨ b = 'b')
  | _ => false

/-- Go `byteSizePattern`. -/
def byteSizePattern (s : Str) : Bool :=
  match digitsPlus s with
  | some ('.' :: r) =>
      (match digitsPlus r with
       | some r2 => byteSizeTail r2
       | none => false)
  | some r => byteSizeTail r
  | none => false

/-- Protocol names of `routeProtocolPattern` (alternation tried in full:
equivalent to leftmost-first backtracking for a boolean match). -/
def routeProtoNames : List String :=
  ["BGP", "OSPF", "OSPF3", "ISIS", "RIP", "Static", "Direct", "Local", "Aggregate"]

/-- Go `routeProtocolPattern`: `^\[(BGP|OSPF|…)/\d+\]$`. -/
def routeProtocolPattern (s : Str) : Bool :=
  match s with
  | '[' :: rest =>
      routeProtoNames.any (fun n =>
        n.toList.isPrefixOf rest &&
        (match rest.drop n.toList.length with
         | '/' :: r2 =>
             r2.takeWhile isDigitCh ≠ [] && r2.dropWhile isDigitCh = [']']
         | _ => false))
  | _ => false

/-- Table names of `tableNamePattern`. -/
def tableNames : List String := ["inet", "inet6", "mpls", "bgp", "iso", "l2vpn"]

/-- Go `tableNamePattern`: `^(inet|inet6|mpls|bgp|iso|l2vpn)\.\d+:?$`. -/
def tableNamePattern (s : Str) : Bool :=
  tableNames.any (fun n =>
    n.toList.isPrefixOf s &&
    (match s.drop n.toList.length with
     | '.' :: r =>
         r.takeWhile isDigitCh ≠ [] &&
         (r.dropWhile isDigitCh = [] || r.dropWhile isDigitCh = [':'])
     | _ => false))

/-- Anchored match of `\w+\s{2,}\w+\s{2,}\w+` at the start of `s`
(word and space classes are disjoint, so maximal-munch is exact). -/
def tabAt (s : Str) : Bool :=
  let r1 := s.dropWhile isWordCh
  let r2 := r1.dropWhile isRE2Space
  let r3 := r2.dropWhile isWordCh
  let r4 := r3.dropWhile isRE2Space
  s.takeWhile isWordCh ≠ [] &&
  2 ≤ (r1.takeWhile isRE2Space).length &&
  r2.takeWhile isWordCh ≠ [] &&
  2 ≤ (r3.takeWhile isRE2Space).length &&
  r4.takeWhile isWordCh ≠ []

/-- Go `tabularPattern.MatchString`: unanchored search for `\w+\s{2,}\w+\s{2,}\w+`. -/
def tabularMatch (s : Str) : Bool := (allSuffixes s).any tabAt

/-- Optional `(:\d+)?` before a successor class excluding `:`: if a `:` is
present the digits are mandatory (the bare `:` could not be matched by the
following `(\.\d+)?$`, so the regex cannot fall back to "absent"). -/
def optColonDigits : Str → Option Str
  | ':' :: r => digitsPlus r
  | s => some s

/-- Optional `(\.\d+)?` before `$` (same forcing argument). -/
def optDotDigits : Str → Option Str
  | '.' :: r => digitsPlus r
  | s => some s

/-- Physical-interface prefixes (`[gx]e|et|so|…` alternation). -/
def ifPrefixesA : List String :=
  ["ge", "xe", "et", "so", "fe", "at", "t1", "t3", "e1", "e3", "mge", "vcp",
   "si", "lsq", "rlsq"]

/-- Logical/aggregated-interface prefixes (second alternation). -/
def ifPrefixesB : List String :=
  ["ae", "reth", "lo", "em", "me", "irb", "vlan", "fab", "gr", "ip", "vt",
   "lt", "ms", "sp", "pp", "pd", "pe", "demux", "dsc", "mtun", "pimd",
   "pime", "tap", "lsi", "st", "vtep", "fti", "jsrv", "gre", "ipip"]

/-- Try every alternation branch `p` with the given suffix matcher. -/
def anyPrefixWith (ps : List String) (suffixOk : Str → Bool) (s : Str) : Bool :=
  ps.any (fun p => p.toList.isPrefixOf s && suffixOk (s.drop p.toList.length))

/-- Suffix `-\d+/\d+/\d+(:\d+)?(\.\d+)?$` of the first interface alternation. -/
def ifSuffixA (s : Str) : Bool :=
  (((((((expectChar '-' s).bind digitsPlus).bind (expectChar '/')).bind
      digitsPlus).bind (expectChar '/')).bind digitsPlus).bind
      optColonDigits).bind optDotDigits == some []

/-- Suffix `\d*(\.\d+)?$` of the second interface alternation. -/
def ifSuffixB (s : Str) : Bool :=
  optDotDigits (s.dropWhile isDigitCh) == some []

/-- Go `interfacePattern` from lexer.go (five `^…$` alternatives). -/
def interfacePattern (s : Str) : Bool :=
  anyPrefixWith ifPrefixesA ifSuffixA s ||
  anyPrefixWith ifPrefixesB ifSuffixB s ||
  (match s with
   | c :: 'x' :: 'p' :: r =>
       (c = 'e' ∨ c = 'f' ∨ c = 'm') &&
       ((digitsPlus r).bind optDotDigits == some [])
   | _ => false) ||
  (match s with
   | 'v' :: 'm' :: 'e' :: r => optDotDigits r == some []
   | _ => false) ||
  s = ['a', 'l', 'l']

/-- Configuration indicators of `detectParseMode`. -/
def detectConfigIndicators : List String :=
  ["set ", "delete ", "\x7b", "\x7d", ";", "host-name", "policy-statement"]

/-- Show-output indicators of `detectParseMode`. -/
def detectShowIndicators : List String :=
  ["establ", "idle", "2way",
   "inet.0", "inet6.0", "bgp.evpn",
   "flaps", "up/dn",
   "physical interface", "logical interface"]

/-- Go `detectParseMode` from lexer.go: sample the first 500 characters, score
case-insensitive indicator presence, add 2 for a tabular match, and return
Show only on `showScore ≥ 2 ∧ showScore > configScore`. -/
def detectParseMode (input : Str) : ParseMode :=
  let sample := if input.length > 500 then input.take 500 else input
  let lower := toLowerStr sample
  let configScore :=
    (detectConfigIndicators.filter (fun i => containsSub lower i.toList)).length
  let showScore :=
    (detectShowIndicators.filter (fun i => containsSub lower i.toList)).length +
    (if tabularMatch sample then 2 else 0)
  if showScore ≥ 2 ∧ showScore > configScore then ParseMode.show else ParseMode.config

end Lexer

namespace Lexer

/-- Go `scanString` loop after the opening quote: stops after a closing quote,
skips `\`-escaped characters (when a next character exists), and absorbs
the rest of the input when unterminated.  Returns (consumed, remaining). -/
def stringBody (q : Char) : Str → Str × Str
  | [] => ([], [])
  | c :: rest =>
    if c = q then ([c], rest)
    else
      match rest with
      | r :: rest' =>
        if c = '\\' then
          let p := stringBody q rest'
          (c :: r :: p.1, p.2)
        else
          let p := stringBody q (r :: rest')
          (c :: p.1, p.2)
      | [] => ([c], [])

/-- Go `scanBlockComment` loop after consuming `/*`: runs while at least two
characters remain (`l.pos < len(l.input)-1`), consuming `*/` and stopping,
or else one character.  Returns (consumed, remaining). -/
def blockBody : Str → Str × Str
  | [] => ([], [])
  | [c] => ([], [c])
  | c :: d :: rest =>
    if c = '*' ∧ d = '/' then (['*', '/'], rest)
    else let p := blockBody (d :: rest); (c :: p.1, p.2)

/-- Go `scanWildcard` after the `<`: consume to `>` (inclusive) or end. -/
def wildcardSplit (s : Str) : Str × Str :=
  match s.dropWhile (· ≠ '>') with
  | x :: r => ('<' :: s.takeWhile (· ≠ '>') ++ [x], r)
  | [] => ('<' :: s.takeWhile (· ≠ '>'), [])

/-- Characters that terminate `scanWord`. -/
def wordStop (c : Char) : Bool :=
  lexIsWhitespace c ∨ c = '\x7b' ∨ c = '\x7d' ∨ c = ';' ∨ c = '"' ∨
  c = '\'' ∨ c = '#'

/-- Go `classifySharedPatterns`: the ordered shared pattern cascade. -/
def classifySharedPatterns (word : Str) : TokenType :=
  if interfacePattern word then .interface
  else if ipv4PrefixPattern word then .ipv4Prefix
  else if ipv4Pattern word then .ipv4
  else if macPattern word then .mac
  else if communityPattern word then .community
  else if ipv6PrefixPattern word then .ipv6Prefix
  else if ipv6Pattern word then .ipv6
  else if numberPattern word then .number
  else .identifier

/-- Go `classifyConfigWord`. -/
def classifyConfigWord (st : LexState) (word lower : Str) : TokenType × LexState :=
  if st.expectingUnit && unitNumberPattern word then
    (.unit, { st with expectingUnit := false })
  else if asnPattern word then (.asn, st)
  else if memTable commands lower then (.command, { st with lastToken := lower })
  else if memTable sections lower then (.section, { st with lastToken := lower })
  else if memTable protocolsTable lower then (.protocol, { st with lastToken := lower })
  else if memTable actions lower then (.action, { st with lastToken := lower })
  else if memTable keywordsTable lower then
    let st1 := if memTable valueKeywords lower then { st with expectingValue := true } else st
    let st2 := if lower = "unit".toList then { st1 with expectingUnit := true } else st1
    (.keyword, { st2 with lastToken := lower })
  else (classifySharedPatterns word, st)

/-- Go `classifyShowWord` (no state updates in the source). -/
def classifyShowWord (word lower : Str) : TokenType :=
  if memTable statesGood lower then .stateGood
  else if memTable statesBad lower then .stateBad
  else if memTable statesWarning lower then .stateWarning
  else if memTable statesNeutral lower then .stateNeutral
  else if word.length ≤ 2 && memTable statusSymbols word then .statusSymbol
  else if timeDurationPattern word then .timeDuration
  else if percentagePattern word then .percentage
  else if byteSizePattern word then .byteSize
  else if routeProtocolPattern word then .routeProtocol
  else if tableNamePattern lower then .tableName
  else if memTable columnHeaders lower then .columnHeader
  else classifySharedPatterns word

/-- Go `classifyWord`: latch the parse mode on first use in Auto mode,
then dispatch on the (latched) mode. -/
def classifyWord (orig : Str) (st : LexState) (word : Str) : TokenType × LexState :=
  let st :=
    if st.parseMode = ParseMode.auto ∧ st.detectedMode = false then
      { st with parseMode := detectParseMode orig, detectedMode := true }
    else st
  let lower := toLowerStr word
  if st.parseMode = ParseMode.show then (classifyShowWord word lower, st)
  else classifyConfigWord st word lower

/-- Go `scanDiffLine` (only consulted at column 1): returns the token kind and
the consumed prefix on a diff line, `none` otherwise. -/
def scanDiffLine (rest : Str) : Option (TokenType × Str) :=
  if ['[', 'e', 'd', 'i', 't'].isPrefixOf rest ∧ 6 ≤ rest.length then
    some (.diffContext, rest.takeWhile (· ≠ '\n'))
  else
    match rest with
    | c :: d :: _ =>
        if (c = '+' ∨ c = '-') ∧ (d = ' ' ∨ d = '\t') then
          some ((if c = '-' then .diffRemove else .diffAdd), [c])
        else none
    | _ => none

/-- Go `nextToken`: one scanning step; returns the token, the updated lexer
state and the remaining input. -/
def nextToken (orig : Str) (st : LexState) (rest : Str) : Token × LexState × Str :=
  match rest with
  | [] => (⟨.text, [], st.line, st.col⟩, st, [])
  | c :: cs =>
    match (if st.col = 1 then scanDiffLine rest else none) with
    | some (ty, consumed) =>
        (⟨ty, consumed, st.line, st.col⟩, lcUpdate st consumed,
         rest.drop consumed.length)
    | none =>
      if c = '#' then
        let consumed := rest.takeWhile (· ≠ '\n')
        let ty := if cs.head? = some '#' then TokenType.annotation else TokenType.comment
        (⟨ty, consumed, st.line, st.col⟩, lcUpdate st consumed,
         rest.dropWhile (· ≠ '\n'))
      else if c = '/' ∧ cs.head? = some '*' then
          let p := blockBody cs.tail
          let consumed := '/' :: '*' :: p.1
          (⟨.comment, consumed, st.line, st.col⟩, lcUpdate st consumed, p.2)
      else
          if c = '"' ∨ c = '\'' then
            let p := stringBody c cs
            let consumed := c :: p.1
            let ty := if st.expectingValue then TokenType.value else TokenType.string
            (⟨ty, consumed, st.line, st.col⟩,
             lcUpdate { st with expectingValue := false } consumed, p.2)
          else if c = '\x7b' ∨ c = '\x7d' then
            (⟨.brace, [c], st.line, st.col⟩,
             lcUpdate { st with expectingValue := false } [c], cs)
          else if c = ';' then
            (⟨.semicolon, [c], st.line, st.col⟩,
             lcUpdate { st with expectingValue := false } [c], cs)
          else if c = '<' then
            let p := wildcardSplit cs
            (⟨.wildcard, p.1, st.line, st.col⟩, lcUpdate st p.1, p.2)
          else if c = '*' then
            (⟨.wildcard, [c], st.line, st.col⟩, lcUpdate st [c], cs)
          else if lexIsWhitespace c then
            let consumed := rest.takeWhile lexIsWhitespace
            (⟨.text, consumed, st.line, st.col⟩, lcUpdate st consumed,
             rest.dropWhile lexIsWhitespace)
          else if st.expectingValue then
            let consumed := rest.takeWhile (fun x => ¬(x = ';' ∨ x = '\n'))
            (⟨.value, trimRightSpaceTab consumed, st.line, st.col⟩,
             lcUpdate { st with expectingValue := false } consumed,
             rest.dropWhile (fun x => ¬(x = ';' ∨ x = '\n')))
          else
            let consumed := rest.takeWhile (fun x => ¬ wordStop x)
            let r := classifyWord orig st consumed
            (⟨r.1, consumed, st.line, st.col⟩, lcUpdate r.2 consumed,
             rest.dropWhile (fun x => ¬ wordStop x))

/-- The `Tokenize` scanning loop (fuel-bounded; `Tokenize` supplies enough
fuel, as each step strictly consumes input).  Mirrors the filter that drops
empty text tokens. -/
def lexLoop : Nat → Str → LexState → Str → List Token
  | 0, _, _, _ => []
  | f + 1, orig, st, rest =>
    match rest with
    | [] => []
    | _ :: _ =>
      let r := nextToken orig st rest
      let tks := lexLoop f orig r.2.1 r.2.2
      if r.1.type ≠ TokenType.text ∨ r.1.value ≠ [] then r.1 :: tks else tks

end Lexer

namespace Lexer

/-- Character class `[\s\x00-\x1f]` (prompt group 3). -/
def isSpaceCtl (c : Char) : Bool := isRE2Space c ∨ c.toNat ≤ 0x1f

/-- Go `[\w-]` (prompt username). -/
def isWordDash (c : Char) : Bool := isWordCh c ∨ c = '-'

/-- Go `[\w.-]` (prompt hostname). -/
def isWordDotDash (c : Char) : Bool := isWordCh c ∨ c = '.' ∨ c = '-'

/-- The eight capture groups of `promptPattern`
`^(\{[^}]+\})?(\[edit[^\]]*\])?([\s\x00-\x1f]*)([\w-]+)@([\w.-]+)([>#])(\s*)(.*?)\n?$`. -/
structure PromptGroups where
  g1 : Str
  g2 : Str
  g3 : Str
  g4 : Str
  g5 : Str
  g6 : Char
  g7 : Str
  g8 : Str
  deriving DecidableEq, Repr

/-- Optional group 1 `(\{[^}]+\})?`.  If the input starts with `{` the group
must match (a leading `{` fits no later sub-pattern, so the regex cannot
fall back to the empty option), and `[^}]+` is forced to run to the first
`}`; otherwise the group is empty. -/
def matchOptBrace : Str → Option (Str × Str)
  | '\x7b' :: t =>
      (match t.dropWhile (· ≠ '\x7d') with
       | '\x7d' :: r =>
           if t.takeWhile (· ≠ '\x7d') = [] then none
           else some ('\x7b' :: t.takeWhile (· ≠ '\x7d') ++ ['\x7d'], r)
       | _ => none)
  | s => some ([], s)

/-- Optional group 2 `(\[edit[^\]]*\])?` (same forcing argument for a
leading `[`). -/
def matchOptEdit : Str → Option (Str × Str)
  | '[' :: 'e' :: 'd' :: 'i' :: 't' :: t2 =>
      (match t2.dropWhile (· ≠ ']') with
       | ']' :: r =>
           some ('[' :: 'e' :: 'd' :: 'i' :: 't' :: t2.takeWhile (· ≠ ']') ++ [']'], r)
       | _ => none)
  | '[' :: _ => none
  | s => some ([], s)

/-- Tail `(.*?)\n?$`: group 8 is the remainder minus an optional final
newline and must itself be newline-free (`.` does not match `\n`). -/
def promptCmdSplit (s : Str) : Option Str :=
  match s.reverse with
  | '\n' :: r => if r.contains '\n' then none else some r.reverse
  | _ => if s.contains '\n' then none else some s

/-- Full-anchored match of `promptPattern` with RE2 leftmost-first submatch
semantics.  All quantifiers are forced (adjacent character classes are
disjoint; literals `@`, `>`/`#` lie outside the preceding classes; a
shorter greedy `(\s*)` can never rescue a failed tail since `.` cannot
match an interior newline), so the backtracking search is equivalent to
this deterministic scan. -/
def promptMatch (s : Str) : Option PromptGroups :=
  match matchOptBrace s with
  | none => none
  | some (g1, s1) =>
    match matchOptEdit s1 with
    | none => none
    | some (g2, s2) =>
      let g3 := s2.takeWhile isSpaceCtl
      let s3 := s2.dropWhile isSpaceCtl
      let g4 := s3.takeWhile isWordDash
      match s3.dropWhile isWordDash with
      | '@' :: s5 =>
        if g4 = [] then none
        else
          let g5 := s5.takeWhile isWordDotDash
          match s5.dropWhile isWordDotDash with
          | c :: s7 =>
            if g5 = [] then none
            else if c = '>' ∨ c = '#' then
              let g7 := s7.takeWhile isRE2Space
              match promptCmdSplit (s7.dropWhile isRE2Space) with
              | some g8 => some ⟨g1, g2, g3, g4, g5, c, g7, g8⟩
              | none => none
            else none
          | [] => none
      | _ => none

/-- Go `lexer.IsPrompt`. -/
def IsPrompt (s : Str) : Bool := (promptMatch (trimSpace s)).isSome

/-- Reassign `Column` fields of re-tokenized command tokens
(`tok.Column = col; col += len(tok.Value)`). -/
def assignCols : Nat → List Token → List Token
  | _, [] => []
  | col, t :: ts => { t with col := col } :: assignCols (col + t.value.length) ts

/-- Token assembly of `tryTokenizePrompt` from the matched groups and the
re-tokenized trailing command. -/
def promptTokens (input : Str) (g : PromptGroups) (cmdToks : List Token) : List Token :=
  let colUser := 1 + g.g1.length + g.g2.length + g.g3.length
  let colAt := colUser + g.g4.length
  let colHost := colAt + 1
  let colPrompt := colHost + g.g5.length
  let colG7 := colPrompt + 1
  let colCmd := colG7 + g.g7.length
  let hostTy := if g.g6 = '#' then TokenType.promptHostConf else TokenType.promptHostOper
  let promptTy := if g.g6 = '#' then TokenType.promptConf else TokenType.promptOper
  (if g.g1 ≠ [] then [⟨.promptEdit, g.g1, 1, 1⟩] else []) ++
  (if g.g2 ≠ [] then [⟨.promptEdit, g.g2, 1, 1 + g.g1.length⟩] else []) ++
  (if g.g3 ≠ [] then [⟨.text, g.g3, 1, 1 + g.g1.length + g.g2.length⟩] else []) ++
  [⟨.promptUser, g.g4, 1, colUser⟩,
   ⟨.promptAt, ['@'], 1, colAt⟩,
   ⟨hostTy, g.g5, 1, colHost⟩,
   ⟨promptTy, [g.g6], 1, colPrompt⟩] ++
  (if g.g7 ≠ [] then [⟨.text, g.g7, 1, colG7⟩] else []) ++
  (if g.g8 ≠ [] then assignCols colCmd cmdToks else []) ++
  (if endsWithNewline input then
     [⟨.text, ['\n'], 1,
       colCmd + (cmdToks.map (fun t => t.value.length)).sum⟩]
   else [])

/-- Go `Tokenize` with explicit fuel for the prompt-path recursion (the
trailing command is a proper sub-string, so `length + 1` fuel suffices).
The command is re-tokenized by a fresh `New` lexer (Auto mode). -/
def tokenizeFuel : Nat → LexState → Str → List Token
  | 0, _, _ => []
  | f + 1, st, s =>
    match promptMatch s with
    | some g => promptTokens s g (tokenizeFuel f initState (trimSpace g.g8))
    | none => lexLoop s.length s st s

/-- Go `Lexer.Tokenize` after `New` (Auto mode). -/
def Tokenize (s : Str) : List Token := tokenizeFuel (s.length + 1) initState s

/-- Go `Lexer.Tokenize` after `New` + `SetParseMode m`. -/
def TokenizeMode (m : ParseMode) (s : Str) : List Token :=
  tokenizeFuel (s.length + 1) (stateWithMode m) s

/-- Concatenation of token values. -/
def joinValues (ts : List Token) : Str := (ts.map Token.value).flatten

end Lexer

namespace Highlighter

/-- Go `highlighter.segment`. -/
structure Segment where
  text : Str
  isEscape : Bool
  deriving DecidableEq, Repr

/-- CSI parameter/intermediate byte (0x20–0x3F). -/
def isCSIParamByte (c : Char) : Bool := 0x20 ≤ c.toNat ∧ c.toNat ≤ 0x3f

/-- CSI final byte (0x40–0x7E). -/
def isCSIFinalByte (c : Char) : Bool := 0x40 ≤ c.toNat ∧ c.toNat ≤ 0x7e

/-- CSI intermediate byte (0x20–0x2F). -/
def isCSIIntermediateByte (c : Char) : Bool := 0x20 ≤ c.toNat ∧ c.toNat ≤ 0x2f

/-- Go `skipCSISequence` (positioned after `ESC [`): parameter bytes, then one
final byte if present.  Returns (consumed, remaining). -/
def csiSplit (s : Str) : Str × Str :=
  let ps := s.takeWhile isCSIParamByte
  match s.dropWhile isCSIParamByte with
  | c :: r => if isCSIFinalByte c then (ps ++ [c], r) else (ps, c :: r)
  | [] => (ps, [])

/-- Go `skipOtherEscapeSequence` (positioned after `ESC`): intermediate bytes,
then one final byte if present. -/
def otherEscSplit (s : Str) : Str × Str :=
  let ps := s.takeWhile isCSIIntermediateByte
  match s.dropWhile isCSIIntermediateByte with
  | c :: r => (ps ++ [c], r)
  | [] => (ps, [])

/-- Go `extractSegments` loop (fuel-bounded; each iteration consumes at least
one character, so `length` fuel suffices and the fuel-exhaustion case
coincides with the end-of-input case). -/
def extractSegsAux : Nat → Str → Str → List Segment
  | 0, buf, _ => if buf = [] then [] else [⟨buf, false⟩]
  | f + 1, buf, rest =>
    match rest with
    | [] => if buf = [] then [] else [⟨buf, false⟩]
    | c :: cs =>
      if c = '\x1b' ∧ cs.head? = some '[' then
        let p := csiSplit cs.tail
        (if buf = [] then [] else [⟨buf, false⟩]) ++
        ⟨'\x1b' :: '[' :: p.1, true⟩ :: extractSegsAux f [] p.2
      else extractSegsAux f (buf ++ [c]) cs

/-- Go `extractSegments`. -/
def extractSegments (s : Str) : List Segment := extractSegsAux s.length [] s

/-- Go `StripANSI` loop (fuel-bounded, same sufficiency argument). -/
def stripAux : Nat → Str → Str
  | 0, _ => []
  | f + 1, rest =>
    match rest with
    | [] => []
    | c :: cs =>
      if c = '\x1b' ∧ cs.head? = some '[' then stripAux f (csiSplit cs.tail).2
      else if c = '\x1b' then stripAux f (otherEscSplit cs).2
      else c :: stripAux f cs

/-- Go `highlighter.StripANSI`. -/
def StripANSI (s : Str) : Str := stripAux s.length s

/-- Go `highlighter.HasANSI`. -/
def HasANSI (s : Str) : Bool := containsSub s ['\x1b', '[']

/-- Go `configIndicators` from highlighter.go. -/
def configIndicators : List String :=
  ["set ", "delete ", "show ", "edit ",
   "interfaces \x7b", "system \x7b", "protocols \x7b",
   "routing-options", "policy-options", "firewall \x7b",
   "security \x7b", "groups \x7b", "vlans \x7b",
   "ge-", "xe-", "et-", "ae", "lo0",
   "family inet", "unit ", "vlan-id",
   "ospf", "bgp", "neighbor", "group"]

/-- Go `showIndicators` from highlighter.go. -/
def showIndicators : List String :=
  ["establ", "idle", "full", "2way",
   "inet.0", "inet6.0", "mpls.0", "bgp.evpn",
   "bgp summary", "ospf neighbor", "interface terse",
   "physical interface", "logical interface",
   "routing table", "flaps", "up/dn",
   "state:", "admin link", "outq"]

/-- Go `commandPrefixes` from highlighter.go. -/
def commandPrefixList : List String :=
  ["set ", "delete ", "show ", "edit ", "request ", "##"]

/-- Go `isAlphanumeric`. -/
def isAlphanumeric (c : Char) : Bool :=
  ('a' ≤ c ∧ c ≤ 'z') ∨ ('A' ≤ c ∧ c ≤ 'Z') ∨ ('0' ≤ c ∧ c ≤ '9')

/-- Go `isAlphanumericOrDash`. -/
def isAlphanumericOrDash (c : Char) : Bool := isAlphanumeric c ∨ c = '-'

/-- Go `isPromptLine`: full prompt match, or the cheap `@`/`>`-or-`#`
structural heuristic on the first `@`. -/
def isPromptLine (input : Str) : Bool :=
  if Lexer.IsPrompt input then true
  else if ¬ containsSub input ['@'] then false
  else if ¬ containsSub input ['>'] ∧ ¬ containsSub input ['#'] then false
  else
    let atIdx := input.indexOf '@'
    if atIdx = 0 ∨ atIdx + 1 ≥ input.length then false
    else
      isAlphanumericOrDash (input.getD (atIdx - 1) ' ') &&
      isAlphanumeric (input.getD (atIdx + 1) ' ')

/-- Go `hasConfigIndicators`. -/
def hasConfigIndicators (lower : Str) : Bool :=
  configIndicators.any (fun i => containsSub lower i.toList)

/-- Go `hasShowIndicators`. -/
def hasShowIndicators (lower : Str) : Bool :=
  showIndicators.any (fun i => containsSub lower i.toList)

/-- Go `hasStructuralPatterns`. -/
def hasStructuralPatterns (input lower : Str) : Bool :=
  if ¬ containsSub input ['\x7b', '\n'] ∧ ¬ containsSub input [';'] then false
  else
    containsSub lower "version ".toList || containsSub input ['#'] ||
    containsSub lower "host-name".toList

/-- Go `startsWithCommand`. -/
def startsWithCommand (input : Str) : Bool :=
  let lowerTrimmed := toLowerStr (trimSpace input)
  commandPrefixList.any (fun p => p.toList.isPrefixOf lowerTrimmed)

/-- Go `looksLikeJunOS`: the content sniffer (reads no `Highlighter` state). -/
def looksLikeJunOS (input : Str) : Bool :=
  if isPromptLine input then true
  else
    let lower := toLowerStr input
    if hasConfigIndicators lower then true
    else if hasShowIndicators lower then true
    else if hasStructuralPatterns input lower then true
    else if startsWithCommand input then true
    else false

/-- Go `highlighter.Theme`: a total token-kind → color-escape mapping
(Go's map with `GetColor` defaulting to `""`). -/
structure Theme where
  colors : Lexer.TokenType → Str

/-- Go `Reset` (`ESC [0m`). -/
def ResetCode : Str := ['\x1b', '[', '0', 'm']

/-- Go `renderTokens`: wrap each token value in its color and `Reset`;
unmapped kinds pass through unstyled. -/
def renderTokens (th : Theme) (ts : List Lexer.Token) : Str :=
  (ts.map (fun t =>
    let color := th.colors t.type
    if color ≠ [] then color ++ t.value ++ ResetCode else t.value)).flatten

/-- Go `highlighter.Highlighter` (the mutex guards no claim-relevant behavior). -/
structure Highlighter where
  theme : Theme
  enabled : Bool

/-- Go `highlightTokensCleaned`: tokenize (fresh Auto-mode lexer) and render. -/
def highlightTokensCleaned (h : Highlighter) (cleaned : Str) : Str :=
  renderTokens h.theme (Lexer.Tokenize cleaned)

/-- Go `Highlighter.Highlight` (the non-forced path). -/
def Highlight (h : Highlighter) (input : Str) : Str :=
  if ¬ h.enabled ∨ input = [] then input
  else
    let cleaned := StripANSI input
    if ¬ looksLikeJunOS cleaned then input
    else highlightTokensCleaned h cleaned

/-- Go `highlightTokens`: segment, pass escapes through, highlight text. -/
def highlightTokens (h : Highlighter) (input : Str) : Str :=
  ((extractSegments input).map (fun seg =>
    if seg.isEscape then seg.text else highlightTokensCleaned h seg.text)).flatten

/-- Go `Highlighter.HighlightForced`. -/
def HighlightForced (h : Highlighter) (input : Str) : Str :=
  if ¬ h.enabled ∨ input = [] then input
  else highlightTokens h input

end Highlighter

/-! Helper lemmas: escape segmenter and stripper. -/

namespace Highlighter

theorem csiSplit_append (s : Str) : (csiSplit s).1 ++ (csiSplit s).2 = s := by
  have hs := List.takeWhile_append_dropWhile (p := isCSIParamByte) (l := s)
  cases h : s.dropWhile isCSIParamByte with
  | nil =>
    rw [h] at hs
    simp only [csiSplit, h]
    simpa using hs
  | cons c r =>
    rw [h] at hs
    simp only [csiSplit, h]
    split
    · simpa using hs
    · simpa using hs

theorem otherEscSplit_append (s : Str) :
    (otherEscSplit s).1 ++ (otherEscSplit s).2 = s := by
  have hs := List.takeWhile_append_dropWhile (p := isCSIIntermediateByte) (l := s)
  cases h : s.dropWhile isCSIIntermediateByte with
  | nil =>
    rw [h] at hs
    simp only [otherEscSplit, h]
    simpa using hs
  | cons c r =>
    rw [h] at hs
    simp only [otherEscSplit, h]
    simpa using hs

theorem csiSplit_length (s : Str) : (csiSplit s).2.length ≤ s.length := by
  have h := congrArg List.length (csiSplit_append s)
  rw [List.length_append] at h
  omega

theorem otherEscSplit_length (s : Str) : (otherEscSplit s).2.length ≤ s.length := by
  have h := congrArg List.length (otherEscSplit_append s)
  rw [List.length_append] at h
  omega

/-- The stripped output never contains an escape character. -/
theorem stripAux_no_esc (f : Nat) (s : Str) : '\x1b' ∉ stripAux f s := by
  induction f generalizing s with
  | zero => simp [stripAux]
  | succ f ih =>
    cases s with
    | nil => simp [stripAux]
    | cons c cs =>
      simp only [stripAux]
      by_cases h1 : c = '\x1b' ∧ cs.head? = some '['
      · rw [if_pos h1]; exact ih _
      · rw [if_neg h1]
        by_cases h2 : c = '\x1b'
        · rw [if_pos h2]; exact ih _
        · rw [if_neg h2]
          simp only [List.mem_cons]
          rintro (h3 | h3)
          · exact h2 h3.symm
          · exact ih _ h3

/-- Stripping is the identity on escape-free input (given enough fuel). -/
theorem stripAux_esc_free (f : Nat) (s : Str) (hfree : '\x1b' ∉ s)
    (hf : s.length ≤ f) : stripAux f s = s := by
  induction f generalizing s with
  | zero =>
    have : s = [] := List.length_eq_zero.mp (Nat.le_zero.mp hf)
    simp [this, stripAux]
  | succ f ih =>
    cases s with
    | nil => simp [stripAux]
    | cons c cs =>
      have hc : ¬ c = '\x1b' := fun h => hfree (h ▸ List.mem_cons_self c cs)
      have hlen : cs.length ≤ f := by
        simp only [List.length_cons] at hf; omega
      simp only [stripAux]
      rw [if_neg (fun h => hc h.1), if_neg hc,
        ih cs (fun h => hfree (List.mem_cons_of_mem c h)) hlen]

/-- Go `StripANSI` is idempotent (helper shared by several claims). -/
theorem stripANSI_stripANSI (s : Str) :
    StripANSI (StripANSI s) = StripANSI s := by
  unfold StripANSI
  exact stripAux_esc_free _ _ (stripAux_no_esc _ _) le_rfl

end Highlighter

namespace Highlighter

/-- Concatenation of segment texts. -/
def joinTexts (segs : List Segment) : Str := (segs.map Segment.text).flatten

theorem extractSegsAux_nil (f : Nat) (buf : Str) :
    extractSegsAux f buf [] = if buf = [] then [] else [⟨buf, false⟩] := by
  cases f <;> rfl

/-- Round-trip invariant of the segmenter loop. -/
theorem extractSegsAux_join (f : Nat) (buf rest : Str) (hf : rest.length ≤ f) :
    joinTexts (extractSegsAux f buf rest) = buf ++ rest := by
  induction f generalizing buf rest with
  | zero =>
    have h0 : rest = [] := List.length_eq_zero.mp (Nat.le_zero.mp hf)
    subst h0
    by_cases hb : buf = [] <;> simp [extractSegsAux, joinTexts, hb]
  | succ f ih =>
    cases rest with
    | nil => by_cases hb : buf = [] <;> simp [extractSegsAux, joinTexts, hb]
    | cons c cs =>
      simp only [extractSegsAux]
      by_cases h1 : c = '\x1b' ∧ cs.head? = some '['
      · rw [if_pos h1]
        obtain ⟨hc, hh⟩ := h1
        cases cs with
        | nil => simp at hh
        | cons d t =>
          have hd : d = '[' := by simpa using hh
          have hlen : (csiSplit t).2.length ≤ f := by
            have h2 := csiSplit_length t
            simp only [List.length_cons] at hf
            omega
          have hrec : (List.map Segment.text
              (extractSegsAux f [] (csiSplit t).2)).flatten = (csiSplit t).2 := by
            simpa [joinTexts] using ih [] (csiSplit t).2 hlen
          subst hc hd
          by_cases hb : buf = [] <;>
            simp [hb, joinTexts, hrec, csiSplit_append t]
      · rw [if_neg h1]
        have hlen : cs.length ≤ f := by
          simp only [List.length_cons] at hf; omega
        rw [ih (buf ++ [c]) cs hlen]
        simp

theorem extractSegsAux_empty (f : Nat) : extractSegsAux f [] [] = [] := by
  cases f <;> rfl

/-- A truncated CSI sequence (only parameter bytes after `ESC [`) is
consumed into a single escape segment. -/
theorem extractSegsAux_csi (f : Nat) (ps : Str)
    (hps : ∀ c ∈ ps, isCSIParamByte c) :
    extractSegsAux (f + 1) [] ('\x1b' :: '[' :: ps) =
      [⟨'\x1b' :: '[' :: ps, true⟩] := by
  have hsplit : csiSplit ps = (ps, []) := by
    simp [csiSplit, List.takeWhile_eq_self_iff.mpr hps,
      List.dropWhile_eq_nil_iff.mpr hps]
  simp only [extractSegsAux]
  rw [if_pos (by simp)]
  simp [hsplit, extractSegsAux_empty]

end Highlighter

/-- C7: `StripANSI` is idempotent: for every input `s`,
`StripANSI (StripANSI s) = StripANSI s`. -/
theorem claim_C7_strip_idempotent (s : Str) :
    Highlighter.StripANSI (Highlighter.StripANSI s) = Highlighter.StripANSI s :=
  Highlighter.stripANSI_stripANSI s

/-- C6: concatenating the `text` fields of `extractSegments s`, in order,
reproduces `s` exactly for every input; and a CSI sequence truncated at
end-of-input (escape, bracket, then only parameter bytes) is consumed into
a single escape segment without error. -/
theorem claim_C6_segment_roundtrip :
    (∀ s : Str, Highlighter.joinTexts (Highlighter.extractSegments s) = s) ∧
    (∀ ps : Str, (∀ c ∈ ps, Highlighter.isCSIParamByte c) →
       Highlighter.extractSegments ('\x1b' :: '[' :: ps) =
         [⟨'\x1b' :: '[' :: ps, true⟩]) := by
  constructor
  · intro s
    exact Highlighter.extractSegsAux_join s.length [] s le_rfl
  · intro ps hps
    show Highlighter.extractSegsAux ('\x1b' :: '[' :: ps).length [] _ = _
    have hl : ('\x1b' :: '[' :: ps).length = (ps.length + 1) + 1 := by simp
    rw [hl]
    exact Highlighter.extractSegsAux_csi (ps.length + 1) ps hps

/-- Witness for C6 at concrete inputs. -/
theorem claim_C6_witness :
    Highlighter.joinTexts (Highlighter.extractSegments
      ('\x1b' :: '[' :: 'K' :: "set x".toList)) =
      '\x1b' :: '[' :: 'K' :: "set x".toList ∧
    Highlighter.extractSegments ['\x1b', '[', '3', '1'] =
      [⟨['\x1b', '[', '3', '1'], true⟩] :=
  ⟨claim_C6_segment_roundtrip.1 _,
   claim_C6_segment_roundtrip.2 ['3', '1'] (by decide)⟩

/-! Helper lemmas: lexer scanning steps. -/

namespace Lexer

theorem stringBody_append (q : Char) : ∀ l : Str,
    (stringBody q l).1 ++ (stringBody q l).2 = l
  | [] => by simp [stringBody]
  | [c] => by
    by_cases hc : c = q <;> simp [stringBody, hc]
  | c :: r :: l' => by
    by_cases hc : c = q
    · simp [stringBody, hc]
    · by_cases hb : c = '\\'
      · subst hb
        have h := stringBody_append q l'
        simp [stringBody, hc, h]
      · have h := stringBody_append q (r :: l')
        simp [stringBody, hc, hb, h]

theorem blockBody_append : ∀ l : Str, (blockBody l).1 ++ (blockBody l).2 = l
  | [] => by simp [blockBody]
  | [c] => by simp [blockBody]
  | c :: d :: l => by
    simp only [blockBody]
    by_cases h : c = '*' ∧ d = '/'
    · rw [if_pos h]; simp [h.1, h.2]
    · rw [if_neg h]
      have hr := blockBody_append (d :: l)
      simp [hr]

theorem stringBody_length (q : Char) (l : Str) :
    (stringBody q l).2.length ≤ l.length := by
  have h := congrArg List.length (stringBody_append q l)
  rw [List.length_append] at h
  omega

theorem blockBody_length (l : Str) : (blockBody l).2.length ≤ l.length := by
  have h := congrArg List.length (blockBody_append l)
  rw [List.length_append] at h
  omega

theorem wildcardSplit_append (s : Str) :
    (wildcardSplit s).1 ++ (wildcardSplit s).2 = '<' :: s := by
  have hs := List.takeWhile_append_dropWhile
    (p := fun x => decide (x ≠ '>')) (l := s)
  unfold wildcardSplit
  cases h : s.dropWhile (fun x => decide (x ≠ '>')) with
  | nil =>
    show ('<' :: s.takeWhile (fun x => decide (x ≠ '>'))) ++ ([] : Str) = '<' :: s
    rw [List.append_nil]
    rw [h, List.append_nil] at hs
    rw [hs]
  | cons x r =>
    show ('<' :: (s.takeWhile (fun x => decide (x ≠ '>')) ++ [x])) ++ r = '<' :: s
    simp only [List.cons_append, List.append_assoc, List.singleton_append,
      List.nil_append]
    rw [h] at hs
    rw [hs]

theorem wildcardSplit_length (s : Str) : (wildcardSplit s).2.length ≤ s.length := by
  have hs := List.takeWhile_append_dropWhile
    (p := fun x => decide (x ≠ '>')) (l := s)
  unfold wildcardSplit
  cases h : s.dropWhile (fun x => decide (x ≠ '>')) with
  | nil => simp
  | cons x r =>
    rw [h] at hs
    have hl := congrArg List.length hs
    simp only [List.length_append, List.length_cons] at hl
    show r.length ≤ s.length
    omega

theorem scanDiffLine_ne_nil (rest : Str) (p : TokenType × Str)
    (h : scanDiffLine rest = some p) : p.2 ≠ [] := by
  unfold scanDiffLine at h
  split at h
  case isTrue hp =>
    obtain ⟨hpre, hlen⟩ := hp
    obtain ⟨t, ht⟩ := List.isPrefixOf_iff_prefix.mp hpre
    obtain rfl := ht
    injection h with h
    subst h
    simp
  case isFalse hp =>
    split at h
    · split at h
      · injection h with h
        subst h
        simp
      · exact absurd h (by simp)
    · exact absurd h (by simp)

end Lexer

namespace Lexer

theorem length_dropWhile_le (p : Char → Bool) (l : Str) :
    (l.dropWhile p).length ≤ l.length := by
  have h := congrArg List.length (List.takeWhile_append_dropWhile (p := p) (l := l))
  rw [List.length_append] at h
  omega

theorem dropWhile_cons_length_lt (p : Char → Bool) (c : Char) (cs : Str)
    (h : p c = true) :
    ((c :: cs).dropWhile p).length < (c :: cs).length := by
  rw [List.dropWhile_cons, if_pos h]
  have hle := length_dropWhile_le p cs
  simp only [List.length_cons]
  omega

/-- Every scanning step on a non-empty remainder strictly consumes input. -/
theorem nextToken_progress (orig : Str) (st : LexState) (c : Char) (cs : Str) :
    (nextToken orig st (c :: cs)).2.2.length < (c :: cs).length := by
  simp only [nextToken]
  cases hdiff : (if st.col = 1 then scanDiffLine (c :: cs) else none) with
  | some p =>
    have hsdl : scanDiffLine (c :: cs) = some p := by
      by_cases hcol : st.col = 1
      · rwa [if_pos hcol] at hdiff
      · rw [if_neg hcol] at hdiff; cases hdiff
    have hne := scanDiffLine_ne_nil _ _ hsdl
    obtain ⟨ty, consumed⟩ := p
    show ((c :: cs).drop consumed.length).length < (c :: cs).length
    rw [List.length_drop]
    have hcons : 1 ≤ consumed.length := by
      cases consumed with
      | nil => exact absurd rfl hne
      | cons a b => simp
    simp only [List.length_cons]
    omega
  | none =>
    dsimp only
    by_cases h1 : c = '#'
    · rw [if_pos h1]
      show ((c :: cs).dropWhile (fun x => decide (x ≠ '\n'))).length < (c :: cs).length
      exact dropWhile_cons_length_lt _ c cs (by subst h1; decide)
    · rw [if_neg h1]
      by_cases h2 : c = '/' ∧ cs.head? = some '*'
      · rw [if_pos h2]
        show (blockBody cs.tail).2.length < (c :: cs).length
        have hb := blockBody_length cs.tail
        have hcs : cs ≠ [] := by
          intro h0; rw [h0] at h2; simp at h2
        have ht : cs.tail.length + 1 = cs.length := by
          cases cs with
          | nil => exact absurd rfl hcs
          | cons a b => simp
        simp only [List.length_cons]
        omega
      · rw [if_neg h2]
        by_cases h3 : c = '"' ∨ c = '\''
        · rw [if_pos h3]
          show (stringBody c cs).2.length < (c :: cs).length
          have hb := stringBody_length c cs
          simp only [List.length_cons]
          omega
        · rw [if_neg h3]
          by_cases h4 : c = '\x7b' ∨ c = '\x7d'
          · rw [if_pos h4]
            show cs.length < (c :: cs).length
            simp
          · rw [if_neg h4]
            by_cases h5 : c = ';'
            · rw [if_pos h5]
              show cs.length < (c :: cs).length
              simp
            · rw [if_neg h5]
              by_cases h6 : c = '<'
              · rw [if_pos h6]
                show (wildcardSplit cs).2.length < (c :: cs).length
                have hb := wildcardSplit_length cs
                simp only [List.length_cons]
                omega
              · rw [if_neg h6]
                by_cases h7 : c = '*'
                · rw [if_pos h7]
                  show cs.length < (c :: cs).length
                  simp
                · rw [if_neg h7]
                  by_cases h8 : lexIsWhitespace c = true
                  · rw [if_pos h8]
                    exact dropWhile_cons_length_lt _ c cs h8
                  · rw [if_neg h8]
                    by_cases h9 : st.expectingValue = true
                    · rw [if_pos h9]
                      show ((c :: cs).dropWhile
                        (fun x => decide ¬(x = ';' ∨ x = '\n'))).length < (c :: cs).length
                      refine dropWhile_cons_length_lt _ c cs ?_
                      have hnl : ¬ c = '\n' := by
                        intro h0
                        exact h8 (by subst h0; decide)
                      simp [h5, hnl]
                    · rw [if_neg h9]
                      show ((c :: cs).dropWhile
                        (fun x => decide ¬wordStop x = true)).length < (c :: cs).length
                      refine dropWhile_cons_length_lt _ c cs ?_
                      have hbr1 : ¬ c = '\x7b' := fun h => h4 (Or.inl h)
                      have hbr2 : ¬ c = '\x7d' := fun h => h4 (Or.inr h)
                      have hq1 : ¬ c = '"' := fun h => h3 (Or.inl h)
                      have hq2 : ¬ c = '\'' := fun h => h3 (Or.inr h)
                      simp [wordStop, h1, h5, h8, hbr1, hbr2, hq1, hq2]

end Lexer

namespace Lexer

/-- The scanning loop's result does not depend on the fuel, once the fuel
covers the remaining length: termination of `Tokenize`'s loop. -/
theorem lexLoop_fuel_indep (orig : Str) :
    ∀ (n f g : Nat) (st : LexState) (rest : Str),
    rest.length ≤ n → rest.length ≤ f → rest.length ≤ g →
    lexLoop f orig st rest = lexLoop g orig st rest := by
  intro n
  induction n with
  | zero =>
    intro f g st rest h0 hf hg
    have hr : rest = [] := List.length_eq_zero.mp (Nat.le_zero.mp h0)
    subst hr
    cases f <;> cases g <;> simp [lexLoop]
  | succ n ih =>
    intro f g st rest hn hf hg
    cases rest with
    | nil => cases f <;> cases g <;> simp [lexLoop]
    | cons c cs =>
      cases f with
      | zero => simp at hf
      | succ f' =>
        cases g with
        | zero => simp at hg
        | succ g' =>
          simp only [lexLoop]
          have hp := nextToken_progress orig st c cs
          simp only [List.length_cons] at hp hn hf hg
          have hrec := ih f' g' (nextToken orig st (c :: cs)).2.1
            (nextToken orig st (c :: cs)).2.2
            (by omega) (by omega) (by omega)
          rw [hrec]

/-- Per-step losslessness check: each emitted token's value is exactly the
consumed input.  The only scanning step that can fail this is the
unquoted-value scan (its trailing-whitespace trim). -/
def cleanScanAux : Nat → Str → LexState → Str → Bool
  | 0, _, _, _ => true
  | f + 1, orig, st, rest =>
    match rest with
    | [] => true
    | _ :: _ =>
      ((nextToken orig st rest).1.value ++ (nextToken orig st rest).2.2 == rest) &&
      cleanScanAux f orig (nextToken orig st rest).2.1 (nextToken orig st rest).2.2

/-- Go `cleanScan s`: the ordinary scan of `s` performs no trimming. -/
def cleanScan (s : Str) : Bool := cleanScanAux s.length s initState s

theorem lexLoop_join (orig : Str) :
    ∀ (f : Nat) (st : LexState) (rest : Str),
    rest.length ≤ f → cleanScanAux f orig st rest = true →
    joinValues (lexLoop f orig st rest) = rest := by
  intro f
  induction f with
  | zero =>
    intro st rest hf _
    have hr : rest = [] := List.length_eq_zero.mp (Nat.le_zero.mp hf)
    subst hr
    simp [lexLoop, joinValues]
  | succ f ih =>
    intro st rest hf hc
    cases rest with
    | nil => simp [lexLoop, joinValues]
    | cons c cs =>
      simp only [cleanScanAux, Bool.and_eq_true, beq_iff_eq] at hc
      obtain ⟨heq, hrec⟩ := hc
      have hp := nextToken_progress orig st c cs
      have hlen : (nextToken orig st (c :: cs)).2.2.length ≤ f := by
        simp only [List.length_cons] at hf hp; omega
      have hjoin := ih _ _ hlen hrec
      simp only [lexLoop]
      split
      · simp only [joinValues, List.map_cons, List.flatten_cons]
        rw [show (List.map Token.value (lexLoop f orig (nextToken orig st (c :: cs)).2.1
            (nextToken orig st (c :: cs)).2.2)).flatten =
          joinValues (lexLoop f orig (nextToken orig st (c :: cs)).2.1
            (nextToken orig st (c :: cs)).2.2) from rfl]
        rw [hjoin, heq]
      · next h =>
        exfalso
        have hval : (nextToken orig st (c :: cs)).1.value = [] := by
          by_contra hne
          exact h (Or.inr hne)
        rw [hval, List.nil_append] at heq
        rw [heq] at hp
        exact lt_irrefl _ hp

/-- An unterminated quoted string (no closing quote at all) is absorbed to
the end of the input. -/
theorem stringBody_absorb (q : Char) : ∀ l : Str, q ∉ l → stringBody q l = (l, [])
  | [], _ => by simp [stringBody]
  | [c], h => by
    have hc : ¬ c = q := fun h0 => h (by simp [h0])
    simp [stringBody, hc]
  | c :: r :: l', h => by
    have hc : ¬ c = q := fun h0 => h (by simp [h0])
    have hr : q ∉ r :: l' := fun h0 => h (List.mem_cons_of_mem c h0)
    by_cases hb : c = '\\'
    · subst hb
      have hl' : q ∉ l' := fun h0 => hr (List.mem_cons_of_mem r h0)
      have hrec := stringBody_absorb q l' hl'
      simp [stringBody, hc, hrec]
    · have hrec := stringBody_absorb q (r :: l') hr
      simp [stringBody, hc, hb, hrec]

theorem containsSub_cons (x : Char) (xs sub : Str) :
    containsSub (x :: xs) sub = (sub.isPrefixOf (x :: xs) || containsSub xs sub) := by
  simp [containsSub, allSuffixes]

/-- An unterminated block comment is absorbed only up to (excluding) the
final character of the input. -/
theorem blockBody_unterminated : ∀ b : Str, ¬ containsSub b ['*', '/'] = true →
    (blockBody b).1 = b.dropLast ∧ (blockBody b).2.length ≤ 1
  | [], _ => by simp [blockBody]
  | [c], _ => by simp [blockBody]
  | c :: d :: l, h => by
    rw [containsSub_cons] at h
    have hpre : ¬ (['*', '/'].isPrefixOf (c :: d :: l) = true) := by
      intro h0
      exact h (by simp [h0])
    have htail : ¬ containsSub (d :: l) ['*', '/'] = true := by
      intro h0
      exact h (by simp [h0])
    have hcd : ¬ (c = '*' ∧ d = '/') := by
      rintro ⟨rfl, rfl⟩
      exact hpre (by simp [List.isPrefixOf])
    have hrec := blockBody_unterminated (d :: l) htail
    simp only [blockBody]
    rw [if_neg hcd]
    refine ⟨?_, hrec.2⟩
    simp only [List.dropLast_cons₂]
    rw [hrec.1]

end Lexer

/-- C1 (amended): the claim as stated is false (see
`claim_C1_counterexample`: both the unquoted-value scan and the prompt
path trim whitespace).  Amended claim: for every input `s` on which the
prompt pattern does not match and whose scan is trim-free (each emitted
token's value is exactly the consumed text, `cleanScan`), concatenating
the values of `Tokenize s` reconstructs `s` exactly byte for byte. -/
theorem claim_C1_lossless_amended (s : Str)
    (hprompt : Lexer.promptMatch s = none)
    (hclean : Lexer.cleanScan s = true) :
    Lexer.joinValues (Lexer.Tokenize s) = s := by
  unfold Lexer.Tokenize Lexer.tokenizeFuel
  rw [hprompt]
  exact Lexer.lexLoop_join s s.length Lexer.initState s le_rfl hclean

set_option maxRecDepth 4000 in
/-- Witness for C1 at the concrete input `"set x;"`. -/
theorem claim_C1_witness :
    Lexer.promptMatch "set x;".toList = none ∧
    Lexer.cleanScan "set x;".toList = true ∧
    Lexer.joinValues (Lexer.Tokenize "set x;".toList) = "set x;".toList :=
  ⟨by decide, by decide, claim_C1_lossless_amended _ (by decide) (by decide)⟩

set_option maxRecDepth 4000 in
/-- Counterexample to C1 as stated: tokenizing `"description x ;"` drops
the space before the `;` (the unquoted-value scan right-trims), so the
concatenated values are `"description x;"`, not the input. -/
theorem claim_C1_counterexample :
    Lexer.joinValues (Lexer.Tokenize "description x ;".toList) =
      "description x;".toList ∧
    Lexer.joinValues (Lexer.Tokenize "description x ;".toList) ≠
      "description x ;".toList :=
  ⟨by rfl, by decide⟩

/-- C9 (amended): tokenization is total, but an unterminated block comment
is absorbed only up to (excluding) the final input character (see
`claim_C9_counterexample`).  Amended claim: every scanning step on
non-empty input strictly advances the cursor; the scanning loop's result is
fuel-independent (the scan terminates, consuming the whole input);
an unterminated quoted string (no closing quote) is absorbed to
end-of-input; an unterminated block comment (no `*/`) absorbs everything
except the final character, which is scanned as a separate token —
no input is ever rejected. -/
theorem claim_C9_totality_amended (orig : Str) (st : Lexer.LexState)
    (c : Char) (cs : Str) (q : Char) (l b : Str)
    (hq : q ∉ l) (hb : containsSub b ['*', '/'] = false) :
    (Lexer.nextToken orig st (c :: cs)).2.2.length < (c :: cs).length ∧
    (∀ f, (c :: cs).length ≤ f →
       Lexer.lexLoop f orig st (c :: cs) =
         Lexer.lexLoop (c :: cs).length orig st (c :: cs)) ∧
    Lexer.stringBody q l = (l, []) ∧
    (Lexer.blockBody b).1 = b.dropLast ∧ (Lexer.blockBody b).2.length ≤ 1 := by
  refine ⟨Lexer.nextToken_progress orig st c cs, ?_,
    Lexer.stringBody_absorb q l hq, ?_, ?_⟩
  · intro f hf
    exact Lexer.lexLoop_fuel_indep orig (c :: cs).length f (c :: cs).length
      st (c :: cs) le_rfl hf le_rfl
  · exact (Lexer.blockBody_unterminated b (by simp [hb])).1
  · exact (Lexer.blockBody_unterminated b (by simp [hb])).2

set_option maxRecDepth 4000 in
/-- Witness for C9 at concrete inputs. -/
theorem claim_C9_witness :
    (Lexer.nextToken "x".toList Lexer.initState ['x']).2.2.length <
      (['x'] : Str).length ∧
    Lexer.lexLoop 3 "x".toList Lexer.initState ['x'] =
      Lexer.lexLoop (['x'] : Str).length "x".toList Lexer.initState ['x'] ∧
    Lexer.stringBody '"' "ab".toList = ("ab".toList, []) ∧
    (Lexer.blockBody "ab".toList).1 = "ab".toList.dropLast ∧
    (Lexer.blockBody "ab".toList).2.length ≤ 1 :=
  have h := claim_C9_totality_amended "x".toList Lexer.initState 'x' [] '"'
    "ab".toList "ab".toList (by decide) (by decide)
  ⟨h.1, h.2.1 3 (by decide), h.2.2.1, h.2.2.2.1, h.2.2.2.2⟩

set_option maxRecDepth 4000 in
/-- Counterexample to C9 as stated: on `"/*a"` the unterminated block
comment token is `"/*"`, not the whole input — the final character is
tokenized separately (still, no error occurs). -/
theorem claim_C9_counterexample :
    Lexer.Tokenize "/*a".toList =
      [(⟨Lexer.TokenType.comment, "/*".toList, 1, 1⟩ : Lexer.Token),
       ⟨Lexer.TokenType.identifier, ['a'], 1, 3⟩] ∧
    (Lexer.Tokenize "/*a".toList).head?.map Lexer.Token.value ≠
      some "/*a".toList :=
  ⟨by rfl, by decide⟩

set_option maxRecDepth 4000 in
/-- C2 (amended): the claim is half right — tokenizing `"up"` in Show mode
yields exactly one state-good token; but in Config mode `"up"` yields one
*command* token, not an identifier (`"up"` is in the `commands` keyword
set; see `claim_C2_counterexample`). -/
theorem claim_C2_up_classification_amended :
    Lexer.TokenizeMode Lexer.ParseMode.show "up".toList =
      [⟨Lexer.TokenType.stateGood, "up".toList, 1, 1⟩] ∧
    Lexer.TokenizeMode Lexer.ParseMode.config "up".toList =
      [⟨Lexer.TokenType.command, "up".toList, 1, 1⟩] :=
  ⟨by rfl, by rfl⟩

set_option maxRecDepth 4000 in
/-- Counterexample to C2 as stated: `"up"` under Config mode is classified
as a command token, which is not the identifier kind. -/
theorem claim_C2_counterexample :
    (Lexer.TokenizeMode Lexer.ParseMode.config "up".toList).map
      Lexer.Token.type = [Lexer.TokenType.command] ∧
    Lexer.TokenType.command ≠ Lexer.TokenType.identifier :=
  ⟨by rfl, by decide⟩

set_option maxRecDepth 4000 in
/-- C3 (amended): with fresh state (flags unset), the documented precedence
holds in Config mode for all four words, and in Show mode for the IPv4-
prefix, MAC and community cases; but `"AS65000"` in Show mode is classified
as an identifier, not ASN — the AS-number check exists only in the Config
cascade (see `claim_C3_counterexample`). -/
theorem claim_C3_precedence_amended :
    Lexer.TokenizeMode Lexer.ParseMode.config "AS65000".toList =
      [⟨Lexer.TokenType.asn, "AS65000".toList, 1, 1⟩] ∧
    Lexer.TokenizeMode Lexer.ParseMode.config "192.168.1.0/24".toList =
      [⟨Lexer.TokenType.ipv4Prefix, "192.168.1.0/24".toList, 1, 1⟩] ∧
    Lexer.TokenizeMode Lexer.ParseMode.config "00:11:22:33:44:55".toList =
      [⟨Lexer.TokenType.mac, "00:11:22:33:44:55".toList, 1, 1⟩] ∧
    Lexer.TokenizeMode Lexer.ParseMode.config "65000:100".toList =
      [⟨Lexer.TokenType.community, "65000:100".toList, 1, 1⟩] ∧
    Lexer.TokenizeMode Lexer.ParseMode.show "192.168.1.0/24".toList =
      [⟨Lexer.TokenType.ipv4Prefix, "192.168.1.0/24".toList, 1, 1⟩] ∧
    Lexer.TokenizeMode Lexer.ParseMode.show "00:11:22:33:44:55".toList =
      [⟨Lexer.TokenType.mac, "00:11:22:33:44:55".toList, 1, 1⟩] ∧
    Lexer.TokenizeMode Lexer.ParseMode.show "65000:100".toList =
      [⟨Lexer.TokenType.community, "65000:100".toList, 1, 1⟩] ∧
    Lexer.TokenizeMode Lexer.ParseMode.show "AS65000".toList =
      [⟨Lexer.TokenType.identifier, "AS65000".toList, 1, 1⟩] :=
  ⟨by rfl, by rfl, by rfl, by rfl, by rfl, by rfl, by rfl, by rfl⟩

set_option maxRecDepth 4000 in
/-- Counterexample to C3 as stated: in Show mode `"AS65000"` falls through
the show cascade and the shared patterns to the identifier default — it is
not classified as ASN. -/
theorem claim_C3_counterexample :
    (Lexer.TokenizeMode Lexer.ParseMode.show "AS65000".toList).map
      Lexer.Token.type = [Lexer.TokenType.identifier] ∧
    Lexer.TokenType.identifier ≠ Lexer.TokenType.asn :=
  ⟨by rfl, by decide⟩

set_option maxRecDepth 4000 in
/-- C8: the full-line input `"user@router> show route"` takes the
prompt-decomposition path and yields prompt-user `"user"`, prompt-at `"@"`,
host-operational `"router"`, prompt-operational `">"`, then (after the
captured whitespace) the re-tokenized trailing command, whose first
non-whitespace token is the command token `"show"`. -/
theorem claim_C8_prompt_decomposition :
    Lexer.Tokenize "user@router> show route".toList =
      [⟨Lexer.TokenType.promptUser, "user".toList, 1, 1⟩,
       ⟨Lexer.TokenType.promptAt, ['@'], 1, 5⟩,
       ⟨Lexer.TokenType.promptHostOper, "router".toList, 1, 6⟩,
       ⟨Lexer.TokenType.promptOper, ['>'], 1, 12⟩,
       ⟨Lexer.TokenType.text, [' '], 1, 13⟩,
       ⟨Lexer.TokenType.command, "show".toList, 1, 14⟩,
       ⟨Lexer.TokenType.text, [' '], 1, 18⟩,
       ⟨Lexer.TokenType.keyword, "route".toList, 1, 19⟩] := by rfl

namespace Lexer

/-- Ghost observer: the sequence of lexer states entered during the
scanning loop (one per emitted scanning step). -/
def scanStates : Nat → Str → LexState → Str → List LexState
  | 0, _, _, _ => []
  | f + 1, orig, st, rest =>
    match rest with
    | [] => []
    | _ :: _ =>
      (nextToken orig st rest).2.1 ::
      scanStates f orig (nextToken orig st rest).2.1 (nextToken orig st rest).2.2

theorem classifyConfigWord_modes (st : LexState) (w l : Str) :
    (classifyConfigWord st w l).2.parseMode = st.parseMode ∧
    (classifyConfigWord st w l).2.detectedMode = st.detectedMode := by
  unfold classifyConfigWord
  split_ifs <;> simp

theorem classifyWord_modes (orig : Str) (st : LexState) (w : Str)
    (h : st.detectedMode = true) :
    (classifyWord orig st w).2.parseMode = st.parseMode ∧
    (classifyWord orig st w).2.detectedMode = true := by
  simp only [classifyWord, h, Bool.true_eq_false, and_false, if_false]
  split
  · exact ⟨rfl, h⟩
  · have hc := classifyConfigWord_modes st w (toLowerStr w)
    exact ⟨hc.1, by rw [hc.2]; exact h⟩

/-- One scanning step never re-evaluates or changes a latched parse mode. -/
theorem nextToken_modes (orig : Str) (st : LexState) (rest : Str)
    (h : st.detectedMode = true) :
    (nextToken orig st rest).2.1.parseMode = st.parseMode ∧
    (nextToken orig st rest).2.1.detectedMode = true := by
  cases rest with
  | nil => exact ⟨rfl, h⟩
  | cons c cs =>
    simp only [nextToken]
    cases hdiff : (if st.col = 1 then scanDiffLine (c :: cs) else none) with
    | some p =>
      obtain ⟨ty, consumed⟩ := p
      exact ⟨rfl, h⟩
    | none =>
      dsimp only
      by_cases h1 : c = '#'
      · rw [if_pos h1]; exact ⟨rfl, h⟩
      · rw [if_neg h1]
        by_cases h2 : c = '/' ∧ cs.head? = some '*'
        · rw [if_pos h2]; exact ⟨rfl, h⟩
        · rw [if_neg h2]
          by_cases h3 : c = '"' ∨ c = '\''
          · rw [if_pos h3]; exact ⟨rfl, h⟩
          · rw [if_neg h3]
            by_cases h4 : c = '\x7b' ∨ c = '\x7d'
            · rw [if_pos h4]; exact ⟨rfl, h⟩
            · rw [if_neg h4]
              by_cases h5 : c = ';'
              · rw [if_pos h5]; exact ⟨rfl, h⟩
              · rw [if_neg h5]
                by_cases h6 : c = '<'
                · rw [if_pos h6]; exact ⟨rfl, h⟩
                · rw [if_neg h6]
                  by_cases h7 : c = '*'
                  · rw [if_pos h7]; exact ⟨rfl, h⟩
                  · rw [if_neg h7]
                    by_cases h8 : lexIsWhitespace c = true
                    · rw [if_pos h8]; exact ⟨rfl, h⟩
                    · rw [if_neg h8]
                      by_cases h9 : st.expectingValue = true
                      · rw [if_pos h9]; exact ⟨rfl, h⟩
                      · rw [if_neg h9]
                        have hc := classifyWord_modes orig st
                          ((c :: cs).takeWhile (fun x => decide ¬wordStop x = true)) h
                        exact ⟨hc.1, hc.2⟩

end Lexer

/-- C4: mode latching.  For a lexer state with the detected flag set (as it
is right after the first word of an Auto-mode scan is classified, or after
`SetParseMode`), every state subsequently entered during the scan keeps
exactly the same parse mode and keeps the flag set — the detector is never
re-run and the mode never changes for the remainder of the scan. -/
theorem claim_C4_mode_latching (f : Nat) (orig : Str) (st st' : Lexer.LexState)
    (rest : Str) (h : st.detectedMode = true)
    (hmem : st' ∈ Lexer.scanStates f orig st rest) :
    st'.parseMode = st.parseMode ∧ st'.detectedMode = true := by
  induction f generalizing st rest with
  | zero => simp [Lexer.scanStates] at hmem
  | succ f ih =>
    cases rest with
    | nil => simp [Lexer.scanStates] at hmem
    | cons c cs =>
      simp only [Lexer.scanStates, List.mem_cons] at hmem
      have hm := Lexer.nextToken_modes orig st (c :: cs) h
      rcases hmem with rfl | hmem
      · exact hm
      · have hr := ih (Lexer.nextToken orig st (c :: cs)).2.1
          (Lexer.nextToken orig st (c :: cs)).2.2 hm.2 hmem
        exact ⟨hr.1.trans hm.1, hr.2⟩

set_option maxRecDepth 4000 in
/-- Witness for C4: scanning `"up"` with a latched Show mode. -/
theorem claim_C4_witness :
    (⟨Lexer.ParseMode.show, true, false, false, [], 1, 3⟩ :
        Lexer.LexState).parseMode =
      (Lexer.stateWithMode Lexer.ParseMode.show).parseMode ∧
    (⟨Lexer.ParseMode.show, true, false, false, [], 1, 3⟩ :
        Lexer.LexState).detectedMode = true :=
  claim_C4_mode_latching 2 "up".toList (Lexer.stateWithMode Lexer.ParseMode.show)
    _ "up".toList rfl (by decide)

namespace Lexer

/-- Spec-side restatement of the detector's configuration score: the number
of fixed configuration-indicator substrings present (case-insensitively) in
the first 500 characters. -/
def configScoreSpec (s : Str) : Nat :=
  (detectConfigIndicators.filter
    (fun i => containsSub (toLowerStr (s.take 500)) i.toList)).length

/-- Spec-side restatement of the detector's show score: fixed show-indicator
substrings present in the first 500 characters, plus 2 on a tabular match. -/
def showScoreSpec (s : Str) : Nat :=
  (detectShowIndicators.filter
    (fun i => containsSub (toLowerStr (s.take 500)) i.toList)).length +
  (if tabularMatch (s.take 500) then 2 else 0)

end Lexer

/-- C5: the parse-mode detector is a pure function of the first 500
characters, scoring case-insensitive presence of the fixed indicator
substrings (plus 2 on the tabular pattern), and returns Show exactly when
`showScore ≥ 2 ∧ showScore > configScore`, otherwise Config. -/
theorem claim_C5_detector (s : Str) :
    Lexer.detectParseMode s = Lexer.detectParseMode (s.take 500) ∧
    (Lexer.detectParseMode s = Lexer.ParseMode.show ↔
      2 ≤ Lexer.showScoreSpec s ∧
      Lexer.configScoreSpec s < Lexer.showScoreSpec s) := by
  have hsample : (if s.length > 500 then s.take 500 else s) = s.take 500 := by
    split
    · rfl
    · next hgt => rw [List.take_of_length_le (by omega)]
  have h2 : (if (s.take 500).length > 500 then (s.take 500).take 500
      else s.take 500) = s.take 500 := by
    split
    · next hgt =>
      exfalso
      have := List.length_take_le 500 s
      omega
    · rfl
  constructor
  · unfold Lexer.detectParseMode
    rw [hsample, h2]
  · unfold Lexer.detectParseMode
    rw [hsample]
    show (if 2 ≤ Lexer.showScoreSpec s ∧
        Lexer.configScoreSpec s < Lexer.showScoreSpec s
      then Lexer.ParseMode.show else Lexer.ParseMode.config) =
        Lexer.ParseMode.show ↔ _
    split
    · next hc => simp [hc]
    · next hc => simp [hc]

/-- C10: on the non-forced path with highlighting enabled and non-empty
input, `Highlight` builds its output from the ANSI-stripped text whenever
the content sniffer accepts it — the output equals the highlighted
stripped text, and equals `Highlight` of the stripped text, so escape
sequences in the original input are removed rather than passed through;
when the sniffer rejects, the original input is returned unchanged. -/
theorem claim_C10_highlight_cleaned (h : Highlighter.Highlighter)
    (input : Str) (he : h.enabled = true) (hne : input ≠ []) :
    (Highlighter.looksLikeJunOS (Highlighter.StripANSI input) = true →
       Highlighter.Highlight h input =
         Highlighter.highlightTokensCleaned h (Highlighter.StripANSI input) ∧
       Highlighter.Highlight h input =
         Highlighter.Highlight h (Highlighter.StripANSI input)) ∧
    (Highlighter.looksLikeJunOS (Highlighter.StripANSI input) = false →
       Highlighter.Highlight h input = input) := by
  constructor
  · intro hacc
    have h1 : Highlighter.Highlight h input =
        Highlighter.highlightTokensCleaned h (Highlighter.StripANSI input) := by
      simp only [Highlighter.Highlight]
      rw [if_neg (by simp [he, hne]), if_neg (by simp [hacc])]
    refine ⟨h1, ?_⟩
    have hstripne : Highlighter.StripANSI input ≠ [] := by
      intro h0
      rw [h0] at hacc
      exact absurd hacc (by decide)
    have h2 : Highlighter.Highlight h (Highlighter.StripANSI input) =
        Highlighter.highlightTokensCleaned h
          (Highlighter.StripANSI (Highlighter.StripANSI input)) := by
      simp only [Highlighter.Highlight]
      rw [Highlighter.stripANSI_stripANSI,
        if_neg (by simp [he, hstripne]), if_neg (by simp [hacc])]
    rw [h1, h2, Highlighter.stripANSI_stripANSI]
  · intro hrej
    simp only [Highlighter.Highlight]
    rw [if_neg (by simp [he, hne]), if_pos (by simp [hrej])]

set_option maxRecDepth 4000 in
/-- Witness for C10: a trivial theme, enabled highlighter, and the accepted
input `"set x;"`. -/
theorem claim_C10_witness :
    Highlighter.Highlight ⟨⟨fun _ => []⟩, true⟩ "set x;".toList =
      Highlighter.highlightTokensCleaned ⟨⟨fun _ => []⟩, true⟩
        (Highlighter.StripANSI "set x;".toList) :=
  ((claim_C10_highlight_cleaned ⟨⟨fun _ => []⟩, true⟩ "set x;".toList rfl
    (by decide)).1 (by decide)).1
